import Mathlib

/-!
Verification of the MCP (Model Context Protocol) HTTP client and the
Bedrock inline-agent orchestrator of this repository.

The development shallowly embeds the Go sources:
  * `src/mcp_time/main.go` (second file of the pair): JSON-RPC envelopes,
    `MCPClient`, `sendRequest`, `Initialize`, `ListTools`, `CallTool`,
    `ActionGroup`, `InlineAgent`, `findMCPClientForTool`, `handleToolUse`
    and the `Invoke` conversation loop;
  * `src/unnamed/part_001`: the variant `sendRequest`/`Initialize` pair that
    parses the `notifications/initialized` transport response.

The HTTP layer is abstracted as a function from the request envelope to the
HTTP response (status code and body string); this models one blocking
`http.Client.Do` exchange.  Connection-level failures and read errors are out
of scope (the claims under study all concern responses that were delivered).
Go's `encoding/json` is modelled by an executable JSON parser over `List Char`
plus decoders that mirror `json.Unmarshal`'s semantics for the concrete target
types used by the client (absent fields keep zero values, `null` is a no-op,
ill-typed fields are errors, duplicate object keys resolve to the last one).
JSON numbers are modelled as integers: every number the client inspects
(request ids, error codes) is integral; fractional or exponent forms are
outside the model and fail the parse.
-/

/-- JSON values.  Objects keep their fields in source order (Go's decoder
processes them in order, later duplicates overwriting earlier ones). -/
inductive JValue where
  | null : JValue
  | bool : Bool → JValue
  | num : Int → JValue
  | str : String → JValue
  | arr : List JValue → JValue
  | obj : List (String × JValue) → JValue

/-- Go `map` lookup for an object built from JSON with possibly duplicated
keys: the last occurrence wins. -/
def lookupL (fields : List (String × JValue)) (k : String) : Option JValue :=
  (fields.reverse.find? (fun p => p.1 == k)).map (·.2)

/-- JSON whitespace accepted by Go's scanner: space, tab, newline, return. -/
def isJsonWs (c : Char) : Bool :=
  c = ' ' || c = '\t' || c = '\n' || c = '\r'

def skipWs : List Char → List Char
  | [] => []
  | c :: cs => if isJsonWs c then skipWs cs else c :: cs

/-- Decode one string escape character (after a backslash). -/
def unescape1 (c : Char) : Option Char :=
  match c with
  | '"' => some '"'
  | '\\' => some '\\'
  | '/' => some '/'
  | 'n' => some '\n'
  | 't' => some '\t'
  | 'r' => some '\r'
  | 'b' => some (Char.ofNat 8)
  | 'f' => some (Char.ofNat 12)
  | _ => none

/-- One case-insensitive hexadecimal digit, by code point. -/
def hexDigit (c : Char) : Option Nat :=
  let n := c.toNat
  if 48 ≤ n && n ≤ 57 then some (n - 48)
  else if 97 ≤ n && n ≤ 102 then some (n - 87)
  else if 65 ≤ n && n ≤ 70 then some (n - 55)
  else none

/-- Body of a JSON string after the opening quote.  Surrogate pairs are not
recombined (none of the inputs under study contain them). -/
def parseStringBody : List Char → List Char → Option (String × List Char)
  | acc, '"' :: rest => some (String.mk acc.reverse, rest)
  | acc, '\\' :: 'u' :: h1 :: h2 :: h3 :: h4 :: rest =>
    match hexDigit h1, hexDigit h2, hexDigit h3, hexDigit h4 with
    | some a, some b, some c, some d =>
      parseStringBody (Char.ofNat (((a * 16 + b) * 16 + c) * 16 + d) :: acc) rest
    | _, _, _, _ => none
  | acc, '\\' :: e :: rest =>
    match unescape1 e with
    | some c => parseStringBody (c :: acc) rest
    | none => none
  | acc, c :: rest => if c.toNat < 32 then none else parseStringBody (c :: acc) rest
  | _, [] => none

/-- A decimal digit, by code point. -/
def isDig (c : Char) : Bool :=
  48 ≤ c.toNat && c.toNat ≤ 57

def digitsToNat (acc : Nat) : List Char → Nat × List Char
  | c :: cs =>
    if isDig c then digitsToNat (acc * 10 + (c.toNat - 48)) cs
    else (acc, c :: cs)
  | [] => (acc, [])

/-- Integer JSON numbers, with Go's grammar (no leading zeros).  A following
`.`, `e` or `E` (a float) is outside the model and rejected. -/
def parseIntNumber (cs : List Char) : Option (Int × List Char) :=
  match cs with
  | '-' :: rest => (parseUIntNumber rest).map (fun p => (-(p.1 : Int), p.2))
  | _ => (parseUIntNumber cs).map (fun p => ((p.1 : Int), p.2))
where
  /-- An unsigned decimal, Go grammar: a lone `0`, or a nonzero digit and a
  digit tail; a leading zero before further digits is malformed, and a
  fraction or exponent marker after the digits is out of the model. -/
  parseUIntNumber (cs1 : List Char) : Option (Nat × List Char) :=
    match cs1 with
    | '0' :: rest =>
      (match rest with
       | c :: _ => if isDig c || c = '.' || c = 'e' || c = 'E' then none
                   else some (0, rest)
       | [] => some (0, []))
    | c :: _ =>
      if isDig c then
        let (n, rest) := digitsToNat 0 cs1
        match rest with
        | r :: _ => if r = '.' || r = 'e' || r = 'E' then none
                    else some (n, rest)
        | [] => some (n, [])
      else none
    | [] => none

mutual

/-- Fuel-indexed JSON value parser. -/
def parseV : Nat → List Char → Option (JValue × List Char)
  | 0, _ => none
  | fuel + 1, cs =>
    match skipWs cs with
    | 'n' :: 'u' :: 'l' :: 'l' :: rest => some (.null, rest)
    | 't' :: 'r' :: 'u' :: 'e' :: rest => some (.bool true, rest)
    | 'f' :: 'a' :: 'l' :: 's' :: 'e' :: rest => some (.bool false, rest)
    | '"' :: rest =>
      match parseStringBody [] rest with
      | some (s, r) => some (.str s, r)
      | none => none
    | '[' :: rest =>
      (match skipWs rest with
       | ']' :: r2 => some (.arr [], r2)
       | r2 => match parseItems fuel r2 with
               | some (vs, r3) => some (.arr vs, r3)
               | none => none)
    | '\x7b' :: rest =>
      (match skipWs rest with
       | '\x7d' :: r2 => some (.obj [], r2)
       | r2 => match parseFields fuel r2 with
               | some (fs, r3) => some (.obj fs, r3)
               | none => none)
    | cs1 => match parseIntNumber cs1 with
             | some (n, rest) => some (.num n, rest)
             | none => none

/-- Comma-separated array items, ending at `]`. -/
def parseItems : Nat → List Char → Option (List JValue × List Char)
  | 0, _ => none
  | fuel + 1, cs =>
    match parseV fuel cs with
    | some (v, rest) =>
      (match skipWs rest with
       | ',' :: r2 => match parseItems fuel r2 with
                      | some (vs, r3) => some (v :: vs, r3)
                      | none => none
       | ']' :: r2 => some ([v], r2)
       | _ => none)
    | none => none

/-- Comma-separated object fields, ending at the closing brace. -/
def parseFields : Nat → List Char → Option (List (String × JValue) × List Char)
  | 0, _ => none
  | fuel + 1, cs =>
    match skipWs cs with
    | '"' :: r1 =>
      (match parseStringBody [] r1 with
       | some (k, r2) =>
         (match skipWs r2 with
          | ':' :: r3 =>
            (match parseV fuel r3 with
             | some (v, r4) =>
               (match skipWs r4 with
                | ',' :: r5 => match parseFields fuel r5 with
                               | some (fs, r6) => some ((k, v) :: fs, r6)
                               | none => none
                | '\x7d' :: r5 => some ([(k, v)], r5)
                | _ => none)
             | none => none)
          | _ => none)
       | none => none)
    | _ => none

end

/-- `json.Unmarshal`-style parse of a whole body: one value followed only by
whitespace. -/
def parseJson (s : String) : Option JValue :=
  match parseV (2 * s.length + 4) s.data with
  | some (v, rest) => if (skipWs rest).isEmpty then some v else none
  | none => none

mutual

/-- Renders a `JValue` back to concrete JSON text.  Used only to build the
concrete response bodies fed to the model in examples; string contents are
emitted verbatim (the examples contain no characters needing escapes). -/
def renderJ : JValue → String
  | .null => "null"
  | .bool true => "true"
  | .bool false => "false"
  | .num n => toString n
  | .str s => "\"" ++ s ++ "\""
  | .arr vs => "[" ++ renderItems vs ++ "]"
  | .obj fs => "\x7b" ++ renderFieldList fs ++ "\x7d"

def renderItems : List JValue → String
  | [] => ""
  | [v] => renderJ v
  | v :: vs => renderJ v ++ "," ++ renderItems vs

def renderFieldList : List (String × JValue) → String
  | [] => ""
  | [(k, v)] => "\"" ++ k ++ "\":" ++ renderJ v
  | (k, v) :: fs => "\"" ++ k ++ "\":" ++ renderJ v ++ "," ++ renderFieldList fs

end

/-! ## Wire envelopes (`src/mcp_time/main.go` lines 76-116, identical in
`src/unnamed/part_001`) -/

/-- `MCPRequest`.  The Go struct has json tags `jsonrpc`, `id`, `method`,
`params,omitempty`: only `params` is dropped when absent; `id` is always
serialized, even when left at its zero value. -/
structure MCPRequest where
  jsonrpc : String
  id : Int
  method : String
  params : Option JValue

/-- `json.Marshal` of an `MCPRequest`: struct fields in declaration order,
`params` omitted when the interface is nil (`omitempty`), `id` always
present because its tag has no `omitempty`. -/
def marshalMCPRequest (r : MCPRequest) : JValue :=
  .obj ([("jsonrpc", .str r.jsonrpc), ("id", .num r.id), ("method", .str r.method)] ++
    (match r.params with
     | some p => [("params", p)]
     | none => []))

/-- `MCPError` as decoded from a response's `error` field. -/
structure MCPError where
  code : Int
  message : String
  data : Option JValue

/-- `MCPResponse`.  `result`/`error` are `none` when the field is absent or
JSON `null` (both leave the Go field nil). -/
structure MCPResponse where
  jsonrpc : String
  id : Int
  result : Option JValue
  error : Option MCPError

/-- `json.Unmarshal` into `MCPError`: absent or `null` fields keep the zero
value, ill-typed fields are errors. -/
def decodeMCPError (fs : List (String × JValue)) : Option MCPError :=
  (match lookupL fs "code" with
   | none => some (0 : Int)
   | some .null => some (0 : Int)
   | some (.num n) => some n
   | some _ => none).bind fun code =>
  (match lookupL fs "message" with
   | none => some ""
   | some .null => some ""
   | some (.str s) => some s
   | some _ => none).bind fun message =>
  (match lookupL fs "data" with
   | none => some (none : Option JValue)
   | some .null => some none
   | some v => some (some v)).bind fun data =>
  some ⟨code, message, data⟩

/-- `json.Unmarshal` into `MCPResponse`.  A top-level `null` is a no-op that
leaves the zero struct; any other non-object is an error. -/
def decodeMCPResponse (v : JValue) : Option MCPResponse :=
  match v with
  | .null => some ⟨"", 0, none, none⟩
  | .obj fs =>
    (match lookupL fs "jsonrpc" with
     | none => some ""
     | some .null => some ""
     | some (.str s) => some s
     | some _ => none).bind fun jsonrpc =>
    (match lookupL fs "id" with
     | none => some (0 : Int)
     | some .null => some (0 : Int)
     | some (.num n) => some n
     | some _ => none).bind fun id =>
    (match lookupL fs "result" with
     | none => some (none : Option JValue)
     | some .null => some none
     | some rv => some (some rv)).bind fun result =>
    (match lookupL fs "error" with
     | none => some (none : Option MCPError)
     | some .null => some none
     | some (.obj efs) => (decodeMCPError efs).map some
     | some _ => none).bind fun error =>
    some ⟨jsonrpc, id, result, error⟩
  | _ => none

/-- Parse a body and unmarshal it as an `MCPResponse` envelope. -/
def parseMCPResponse (s : String) : Option MCPResponse :=
  (parseJson s).bind decodeMCPResponse

/-! ## Tool-facing data (`src/mcp_time/main.go` lines 96-116) -/

/-- `Tool`.  `InputSchema` is a `map[string]interface{}`; nil is modelled as
`JValue.null`. -/
structure Tool where
  name : String
  description : String
  inputSchema : JValue

/-- `ToolCall`. -/
structure ToolCall where
  name : String
  arguments : List (String × JValue)

/-- `ContentBlock` (json tags `type`, `text`). -/
structure ContentBlock where
  type : String
  text : String

/-- `ToolResult` (json tags `content`, `isError,omitempty`). -/
structure ToolResult where
  content : List ContentBlock
  isError : Bool

/-- `json.Unmarshal` into `Tool`: absent/`null` fields keep zero values; a
schema that is not an object (and not `null`) is a type error. -/
def decodeTool (v : JValue) : Option Tool :=
  match v with
  | .null => some ⟨"", "", .null⟩
  | .obj fs =>
    (match lookupL fs "name" with
     | none => some ""
     | some .null => some ""
     | some (.str s) => some s
     | some _ => none).bind fun name =>
    (match lookupL fs "description" with
     | none => some ""
     | some .null => some ""
     | some (.str s) => some s
     | some _ => none).bind fun description =>
    (match lookupL fs "inputSchema" with
     | none => some JValue.null
     | some .null => some JValue.null
     | some (.obj sfs) => some (.obj sfs)
     | some _ => none).bind fun schema =>
    some ⟨name, description, schema⟩
  | _ => none

/-- `json.Unmarshal` of the `tools` field into `[]Tool` (`null` gives the nil
slice). -/
def decodeToolList (v : JValue) : Option (List Tool) :=
  match v with
  | .null => some []
  | .arr items => items.mapM decodeTool
  | _ => none

/-- `json.Unmarshal` into `ContentBlock`. -/
def decodeContentBlock (v : JValue) : Option ContentBlock :=
  match v with
  | .null => some ⟨"", ""⟩
  | .obj fs =>
    (match lookupL fs "type" with
     | none => some ""
     | some .null => some ""
     | some (.str s) => some s
     | some _ => none).bind fun ty =>
    (match lookupL fs "text" with
     | none => some ""
     | some .null => some ""
     | some (.str s) => some s
     | some _ => none).bind fun tx =>
    some ⟨ty, tx⟩
  | _ => none

/-- `CallTool` re-marshals `resp.Result` and unmarshals it into `ToolResult`.
A nil result marshals to `null`, which unmarshals to the zero `ToolResult`. -/
def decodeToolResult (r : Option JValue) : Option ToolResult :=
  match r with
  | none => some ⟨[], false⟩
  | some .null => some ⟨[], false⟩
  | some (.obj fs) =>
    (match lookupL fs "content" with
     | none => some ([] : List ContentBlock)
     | some .null => some []
     | some (.arr items) => items.mapM decodeContentBlock
     | some _ => none).bind fun content =>
    (match lookupL fs "isError" with
     | none => some false
     | some .null => some false
     | some (.bool b) => some b
     | some _ => none).bind fun isError =>
    some ⟨content, isError⟩
  | some _ => none

/-! ## Transport and SSE framing -/

/-- One delivered HTTP response: status code and fully-read body. -/
structure HttpResp where
  status : Nat
  body : String

/-- The HTTP exchange performed by `httpClient.Do` for one serialized
envelope: request in, status and body out.  Connection failures and read
errors are outside the model. -/
def Transport : Type := MCPRequest → HttpResp

/-- `strings.HasPrefix`. -/
def hasPrefixS (s pre : String) : Bool :=
  pre.data.isPrefixOf s.data

def isTrimSpaceWs (c : Char) : Bool :=
  c = ' ' || c = '\t' || c = '\n' || c = '\r' || c = '\x0b' || c = '\x0c'

/-- `strings.TrimSpace`, restricted to ASCII whitespace (the bodies under
study contain no Unicode spaces). -/
def trimSpaceS (s : String) : String :=
  String.mk (((s.data.dropWhile isTrimSpaceWs).reverse.dropWhile isTrimSpaceWs).reverse)

def dropTrailingCR (l : List Char) : List Char :=
  match l.getLast? with
  | some '\r' => l.dropLast
  | _ => l

def splitNL : List Char → List (List Char)
  | [] => [[]]
  | '\n' :: cs => [] :: splitNL cs
  | c :: cs =>
    match splitNL cs with
    | [] => [[c]]
    | l :: ls => (c :: l) :: ls

/-- The lines produced by `bufio.Scanner` with `ScanLines`: split on `\n`,
drop one trailing `\r` per line, no final empty token after a trailing
newline, and no token at all for an empty input. -/
def goLines (s : String) : List (List Char) :=
  match s.data with
  | [] => []
  | cs =>
    let parts := splitNL cs
    let parts := if cs.getLast? = some '\n' then parts.dropLast else parts
    parts.map dropTrailingCR

/-- `extractSSEData` (`src/mcp_time/main.go` lines 136-146): the trimmed
remainder of the first line beginning with `data:`, or `""` if there is no
such line. -/
def extractSSEData (sseResponse : String) : String :=
  go (goLines sseResponse)
where
  go : List (List Char) → String
    | [] => ""
    | l :: ls =>
      if ("data:".data).isPrefixOf l then trimSpaceS (String.mk (l.drop 5))
      else go ls

/-! ## MCP client (`src/mcp_time/main.go` lines 119-342) -/

/-- `MCPClient`: the `http.Client` lives in the `Transport` argument of each
operation; the struct keeps the base URL and the private request-id counter. -/
structure MCPClient where
  baseURL : String
  requestID : Int

/-- `NewMCPClient`. -/
def NewMCPClient (baseURL : String) : MCPClient :=
  ⟨baseURL, 0⟩

/-- The distinguishable error kinds produced by the client, one constructor
per `fmt.Errorf` site:
  * `httpError`     — `"HTTP error: %d - %s"` (non-OK status, with body);
  * `unmarshalErr`  — a `json.Unmarshal` failure, tagged with the site text;
  * `mcpError`      — `"MCP error %d: %s"` (envelope's `error` field set);
  * `notificationError` — `"notification error %d: %s"` (part_001 handshake);
  * `formatError`   — shape errors such as `"unexpected response format"`. -/
inductive GoErr where
  | httpError (status : Nat) (body : String)
  | unmarshalErr (site : String)
  | mcpError (code : Int) (message : String)
  | notificationError (code : Int) (message : String)
  | formatError (message : String)

/-- The `%v` rendering of a `GoErr`, as interpolated by
`fmt.Sprintf("Error executing tool: %v", err)`.  For `unmarshalErr` the
wrapped `encoding/json` error text is not reproduced, only the site prefix. -/
def GoErr.render : GoErr → String
  | .httpError status body => "HTTP error: " ++ toString status ++ " - " ++ body
  | .unmarshalErr site => site
  | .mcpError code msg => "MCP error " ++ toString code ++ ": " ++ msg
  | .notificationError code msg => "notification error " ++ toString code ++ ": " ++ msg
  | .formatError msg => msg

namespace MCPTime

/-- `sendRequest` (`src/mcp_time/main.go` lines 149-230): bump the counter,
send, reject non-200 statuses, accept an empty body as a null result, peel
SSE framing when the body starts with `event:`, unmarshal, and surface a
populated `error` field as an error.  Returns the mutated client and the
call's outcome. -/
def sendRequest (c : MCPClient) (t : Transport) (method : String)
    (params : Option JValue) : MCPClient × Except GoErr MCPResponse :=
  let c1 : MCPClient := { c with requestID := c.requestID + 1 }
  let req : MCPRequest := ⟨"2.0", c1.requestID, method, params⟩
  let resp := t req
  let outcome : Except GoErr MCPResponse :=
    if resp.status ≠ 200 then
      .error (.httpError resp.status resp.body)
    else if resp.body = "" then
      .ok ⟨"2.0", c1.requestID, none, none⟩
    else if hasPrefixS resp.body "event:" then
      let jsonData := extractSSEData resp.body
      if jsonData = "" then
        .ok ⟨"2.0", c1.requestID, none, none⟩
      else
        match parseMCPResponse jsonData with
        | none => .error (.unmarshalErr "failed to unmarshal SSE JSON data")
        | some mcpResp =>
          match mcpResp.error with
          | some e => .error (.mcpError e.code e.message)
          | none => .ok mcpResp
    else
      match parseMCPResponse resp.body with
      | none => .error (.unmarshalErr "failed to unmarshal response")
      | some mcpResp =>
        match mcpResp.error with
        | some e => .error (.mcpError e.code e.message)
        | none => .ok mcpResp
  (c1, outcome)

end MCPTime

/-- The `initialize` params literal (identical in both client variants). -/
def initializeParams : JValue :=
  .obj [("protocolVersion", .str "2024-11-05"),
        ("capabilities", .obj [("tools", .obj [("listChanged", .bool true)])]),
        ("clientInfo", .obj [("name", .str "bedrock-mcp-client"),
                             ("version", .str "1.0.0")])]

/-- The `notifications/initialized` request struct as both variants build it:
`ID` is never assigned and stays at its zero value `0`, `Params` is an empty
map (non-nil, so not dropped by `omitempty`). -/
def initializedNotification : MCPRequest :=
  ⟨"2.0", 0, "notifications/initialized", some (.obj [])⟩

namespace MCPTime

/-- `Initialize` (`src/mcp_time/main.go` lines 233-287): send `initialize`
through `sendRequest`, then POST the `notifications/initialized` envelope
directly.  The notification's HTTP response body is read and logged but
never parsed or checked; the function returns success regardless of its
status or content. -/
def Initialize (c : MCPClient) (t : Transport) : MCPClient × Except GoErr Unit :=
  match MCPTime.sendRequest c t "initialize" (some initializeParams) with
  | (c1, .error e) => (c1, .error e)
  | (c1, .ok _) =>
    let c2 : MCPClient := { c1 with requestID := c1.requestID + 1 }
    let _resp2 := t initializedNotification
    (c2, .ok ())

/-- `ListTools` (`src/mcp_time/main.go` lines 290-317). -/
def ListTools (c : MCPClient) (t : Transport) :
    MCPClient × Except GoErr (List Tool) :=
  match MCPTime.sendRequest c t "tools/list" none with
  | (c1, .error e) => (c1, .error e)
  | (c1, .ok resp) =>
    match resp.result with
    | some (.obj resultMap) =>
      (match lookupL resultMap "tools" with
       | none => (c1, .error (.formatError "no tools found in response"))
       | some toolsV =>
         match decodeToolList toolsV with
         | none => (c1, .error (.unmarshalErr "failed to unmarshal tools"))
         | some tools => (c1, .ok tools))
    | _ => (c1, .error (.formatError "unexpected response format"))

/-- `CallTool` (`src/mcp_time/main.go` lines 320-342). -/
def CallTool (c : MCPClient) (t : Transport) (toolCall : ToolCall) :
    MCPClient × Except GoErr ToolResult :=
  let params : JValue := .obj [("name", .str toolCall.name),
                               ("arguments", .obj toolCall.arguments)]
  match MCPTime.sendRequest c t "tools/call" (some params) with
  | (c1, .error e) => (c1, .error e)
  | (c1, .ok resp) =>
    match decodeToolResult resp.result with
    | none => (c1, .error (.unmarshalErr "failed to unmarshal result"))
    | some result => (c1, .ok result)

end MCPTime

/-! ## The `src/unnamed/part_001` client variant -/

namespace Part001

/-- `sendRequest` in `src/unnamed/part_001` (lines 89-189).  After the status
check the function calls `io.ReadAll(resp.Body)` a second time; the stream
was already drained by the first read, so the second read yields an empty
slice and the subsequent `len(body) == 0` branch always fires on a 200
response.  The SSE/JSON parsing code below that branch is dead and elided. -/
def sendRequest (c : MCPClient) (t : Transport) (method : String)
    (params : Option JValue) : MCPClient × Except GoErr MCPResponse :=
  let c1 : MCPClient := { c with requestID := c.requestID + 1 }
  let req : MCPRequest := ⟨"2.0", c1.requestID, method, params⟩
  let resp := t req
  let outcome : Except GoErr MCPResponse :=
    if resp.status ≠ 200 then
      .error (.httpError resp.status resp.body)
    else
      -- second ReadAll of the drained body
      let body2 : String := ""
      if body2 = "" then .ok ⟨"2.0", c1.requestID, none, none⟩
      else .error (.unmarshalErr "unreachable")
  (c1, outcome)

/-- `Initialize` in `src/unnamed/part_001` (lines 191-287): after the
`initialize` request succeeds, POST the `notifications/initialized`
envelope, then inspect the notification's response body.  A non-empty body
is parsed (through the SSE framing when it starts with `event:`); if it
parses to an envelope whose `error` field is set, the handshake fails with
`"notification error %d: %s"`; a body that fails to parse, parses with no
error, yields no SSE data, or is empty is ignored and the handshake
succeeds. -/
def Initialize (c : MCPClient) (t : Transport) : MCPClient × Except GoErr Unit :=
  match Part001.sendRequest c t "initialize" (some initializeParams) with
  | (c1, .error e) => (c1, .error e)
  | (c1, .ok _) =>
    let c2 : MCPClient := { c1 with requestID := c1.requestID + 1 }
    let resp2 := t initializedNotification
    let body := resp2.body
    let outcome : Except GoErr Unit :=
      if body ≠ "" then
        if hasPrefixS body "event:" then
          let jsonData := extractSSEData body
          if jsonData ≠ "" then
            match parseMCPResponse jsonData with
            | some notifyResp =>
              (match notifyResp.error with
               | some e => .error (.notificationError e.code e.message)
               | none => .ok ())
            | none => .ok ()
          else .ok ()
        else
          match parseMCPResponse body with
          | some notifyResp =>
            (match notifyResp.error with
             | some e => .error (.notificationError e.code e.message)
             | none => .ok ())
          | none => .ok ()
      else .ok ()
    (c2, outcome)

end Part001

/-! ## Action groups and the inline agent (`src/mcp_time/main.go` lines
344-508) -/

/-- Clients are identified by pointer; the model names them by index. -/
abbrev ClientId := Nat

/-- `ActionGroup`. -/
structure ActionGroup where
  name : String
  mcpClients : List ClientId
  tools : List Tool

/-- `InlineAgent` (the `bedrockClient` handle lives in the `converse`
argument of `Invoke`). -/
structure InlineAgent where
  foundationModel : String
  instruction : String
  agentName : String
  actionGroups : List ActionGroup

/-- The inner loop of `findMCPClientForTool`: scan the group's tool list in
order; on a name match return the group's first client — the code comment
reads "assuming one tool per client for simplicity" — or keep scanning when
the group has no clients. -/
def findToolLoop (toolName : String) : List Tool → List ClientId → Option ClientId
  | [], _ => none
  | tool :: ts, clients =>
    if tool.name = toolName then
      match clients with
      | c :: _ => some c
      | [] => findToolLoop toolName ts clients
    else findToolLoop toolName ts clients

def findInGroups (toolName : String) : List ActionGroup → Option ClientId
  | [] => none
  | g :: gs =>
    match findToolLoop toolName g.tools g.mcpClients with
    | some c => some c
    | none => findInGroups toolName gs

/-- `findMCPClientForTool` (`src/mcp_time/main.go` lines 433-446). -/
def findMCPClientForTool (a : InlineAgent) (toolName : String) : Option ClientId :=
  findInGroups toolName a.actionGroups

/-- A registration description: each member client with the tools its
`ListTools` contributed, in order.  `AddActionGroup` accumulates exactly
these tool lists, client by client, into the group's `Tools` slice. -/
def buildActionGroup (name : String) (members : List (ClientId × List Tool)) :
    ActionGroup :=
  ⟨name, members.map (·.1), (members.map (·.2)).flatten⟩

/-- The agent that results from registering the given groups in order. -/
def agentOfSetup (setup : List (String × List (ClientId × List Tool))) :
    InlineAgent :=
  ⟨"", "", "", setup.map (fun g => buildActionGroup g.1 g.2)⟩

/-- The client registered as serving the first tool whose name matches, in
registration order of groups, then of clients within the group, then of
tools within the client — the spec's notion of "the client that actually
serves that tool".  This definition follows the spec's words and is compared
against `findMCPClientForTool`. -/
def ownerOfFirstMatch (setup : List (String × List (ClientId × List Tool)))
    (toolName : String) : Option ClientId :=
  (setup.flatMap (fun g => g.2.flatMap (fun m => m.2.map (fun t => (m.1, t))))
    |>.find? (fun p => p.2.name == toolName)).map (·.1)

/-! ## Tool dispatch and the conversation loop (`src/mcp_time/main.go`
lines 449-626) -/

/-- The `toolUse` map handed to `handleToolUse` — a `map[string]interface{}`
from which the handler reads `toolUseId`, `name` and `input` with type
assertions.  `none` models a key that is absent or holds a value of the
wrong dynamic type (both fail the assertion the same way). -/
structure ToolUseMsg where
  toolUseId : Option String
  name : Option String
  input : Option (List (String × JValue))

/-- The `map[string]interface{}` a handler returns for Bedrock: keys
`toolUseId`, `content` (a list of `{"text": ...}` singleton maps, modelled by
their text values) and `status`. -/
structure BedrockToolResult where
  toolUseId : String
  content : List String
  status : String

/-- The outcome of `CallTool` on a given client, abstracting the per-client
transport: `callTool cid tc` is `(MCPTime.CallTool c (transport cid) tc).2`
for that client's current state and transport. -/
def CallToolFn : Type := ClientId → ToolCall → Except GoErr ToolResult

/-- `handleToolUse` (`src/mcp_time/main.go` lines 449-508): a missing (or
non-string) tool name is the only hard error; an unresolved tool and a
failed `CallTool` both become error-status results; a successful call's
content blocks are projected onto their `text` fields and the status mirrors
`result.IsError`. -/
def handleToolUse (a : InlineAgent) (callTool : CallToolFn)
    (toolUse : ToolUseMsg) : Except String BedrockToolResult :=
  let toolUseID := toolUse.toolUseId.getD ""
  match toolUse.name with
  | none => .error "missing tool name"
  | some name =>
    let input := toolUse.input.getD []
    match findMCPClientForTool a name with
    | none =>
      .ok ⟨toolUseID, ["Tool '" ++ name ++ "' not found"], "error"⟩
    | some cid =>
      match callTool cid ⟨name, input⟩ with
      | .error e =>
        .ok ⟨toolUseID, ["Error executing tool: " ++ e.render], "error"⟩
      | .ok result =>
        .ok ⟨toolUseID, result.content.map (·.text),
             if result.isError then "error" else "success"⟩

/-- One content block of an assistant turn as `Invoke`'s type switch sees it:
a text block or a tool-use block (already projected onto the map the loop
builds from it at lines 569-575). -/
inductive ABlock where
  | text (s : String)
  | toolUse (t : ToolUseMsg)

/-- One content block of a conversation message: the assistant turns are
appended verbatim; a tool-result block carries its tool-use id and its list
of text content blocks (`types.ToolResultContentBlock`). -/
inductive ConvBlock where
  | text (s : String)
  | toolUse (t : ToolUseMsg)
  | toolResult (toolUseId : String) (content : List String)

inductive Role where
  | user
  | assistant

structure Message where
  role : Role
  content : List ConvBlock

def ABlock.toConv : ABlock → ConvBlock
  | .text s => .text s
  | .toolUse t => .toolUse t

def ABlock.textOf : ABlock → Option String
  | .text s => some s
  | _ => none

def ABlock.toolUseOf : ABlock → Option ToolUseMsg
  | .toolUse t => some t
  | _ => none

/-- The model backend: one `bedrockClient.Converse` call, from the
conversation so far (system prompt and tool catalogue are fixed in the
closure) to the next assistant turn's content, or an API error. -/
def ConverseFn : Type := List Message → Except String (List ABlock)

/-- The tool-dispatch section of `Invoke`'s loop body (lines 584-615): one
`types.ContentBlockMemberToolResult` per tool use, in order, each holding a
single text block that concatenates the texts of the handler's content
maps; a handler error aborts with `"tool execution failed: ..."`. -/
def processToolUses (a : InlineAgent) (callTool : CallToolFn) :
    List ToolUseMsg → Except String (List ConvBlock)
  | [] => .ok []
  | tu :: rest =>
    match handleToolUse a callTool tu with
    | .error e => .error ("tool execution failed: " ++ e)
    | .ok r =>
      match processToolUses a callTool rest with
      | .error e => .error e
      | .ok blocks => .ok (.toolResult r.toolUseId [String.join r.content] :: blocks)

/-- The `for` loop of `Invoke` (lines 548-625), with explicit fuel standing
in for the unbounded Go loop.  Returns the conversation as accumulated so
far together with the outcome; `Invoke` projects the outcome. -/
def invokeLoop (a : InlineAgent) (callTool : CallToolFn) (converse : ConverseFn) :
    Nat → List Message → List Message × Except String String
  | 0, msgs => (msgs, .error "loop fuel exhausted")
  | fuel + 1, msgs =>
    match converse msgs with
    | .error e => (msgs, .error ("bedrock converse failed: " ++ e))
    | .ok blocks =>
      let msgs1 := msgs ++ [⟨.assistant, blocks.map ABlock.toConv⟩]
      let textResponse := String.join (blocks.filterMap ABlock.textOf)
      let toolUses := blocks.filterMap ABlock.toolUseOf
      if toolUses.isEmpty then (msgs1, .ok textResponse)
      else
        match processToolUses a callTool toolUses with
        | .error e => (msgs1, .error e)
        | .ok toolResults =>
          invokeLoop a callTool converse fuel (msgs1 ++ [⟨.user, toolResults⟩])

/-- `Invoke` (lines 511-626): seed the conversation with the user text and
run the loop. -/
def Invoke (a : InlineAgent) (callTool : CallToolFn) (converse : ConverseFn)
    (fuel : Nat) (inputText : String) : Except String String :=
  (invokeLoop a callTool converse fuel [⟨.user, [.text inputText]⟩]).2

/-! ## Claims -/

/-- The fields of a marshaled JSON object. -/
def jFields : JValue → List (String × JValue)
  | .obj fs => fs
  | _ => []

/-- C2: every non-notification envelope is serialized with an integer `id`
field, but the `notifications/initialized` envelope is serialized with an
`id` field as well — value `0` — because the struct's `ID` field has no
`omitempty` tag; the id field is not omitted as claimed. -/
theorem c2_notificationCarriesId :
    marshalMCPRequest initializedNotification =
      .obj [("jsonrpc", .str "2.0"), ("id", .num 0),
            ("method", .str "notifications/initialized"),
            ("params", .obj [])] ∧
    (∀ r : MCPRequest, ("id", .num r.id) ∈ jFields (marshalMCPRequest r)) := by
  refine ⟨rfl, fun r => ?_⟩
  cases h : r.params <;> simp [marshalMCPRequest, jFields, h]

/-- C8: a tool-use whose name resolves to no registered client yields a
successful (`ok`, not error) result tagged with the originating tool-use id,
an error status and the text `Tool '<name>' not found`. -/
theorem c8_toolNotFoundSoft (a : InlineAgent) (callTool : CallToolFn)
    (tu : ToolUseMsg) (n : String) (hname : tu.name = some n)
    (hfind : findMCPClientForTool a n = none) :
    handleToolUse a callTool tu =
      .ok ⟨tu.toolUseId.getD "", ["Tool '" ++ n ++ "' not found"], "error"⟩ := by
  simp [handleToolUse, hname, hfind]

/-- C8 witness: an agent with no action groups and a tool-use for `echo`. -/
theorem c8_toolNotFoundSoft_witness :
    handleToolUse ⟨"", "", "", []⟩ (fun _ _ => .error (.formatError "x"))
        ⟨some "tu-1", some "echo", none⟩ =
      .ok ⟨"tu-1", ["Tool 'echo' not found"], "error"⟩ :=
  c8_toolNotFoundSoft ⟨"", "", "", []⟩ (fun _ _ => .error (.formatError "x"))
    ⟨some "tu-1", some "echo", none⟩ "echo" rfl rfl

/-- C6: whenever the 200-status body (directly, or through the SSE `data:`
payload) parses to an envelope whose `error` field is populated,
`sendRequest` returns the distinguishable `mcpError` kind carrying the
server's code and message, never a success. -/
theorem c6_protocolErrorSurfaced (c : MCPClient) (t : Transport)
    (method : String) (params : Option JValue) (body : String)
    (r : MCPResponse) (e : MCPError)
    (ht : t ⟨"2.0", c.requestID + 1, method, params⟩ = ⟨200, body⟩)
    (hr : r.error = some e)
    (hcase : (hasPrefixS body "event:" = false ∧ parseMCPResponse body = some r)
      ∨ (hasPrefixS body "event:" = true ∧ extractSSEData body ≠ ""
          ∧ parseMCPResponse (extractSSEData body) = some r)) :
    (MCPTime.sendRequest c t method params).2 =
      .error (.mcpError e.code e.message) := by
  rcases hcase with ⟨hp, hparse⟩ | ⟨hp, hne, hparse⟩
  · have hbody : body ≠ "" := by
      intro h
      rw [h] at hparse
      exact Option.noConfusion ((rfl : parseMCPResponse "" = none) ▸ hparse)
    simp [MCPTime.sendRequest, ht, hbody, hp, hparse, hr]
  · have hbody : body ≠ "" := by
      intro h
      rw [h] at hp
      exact Bool.noConfusion ((rfl : hasPrefixS "" "event:" = false) ▸ hp)
    simp [MCPTime.sendRequest, ht, hbody, hp, hne, hparse, hr]

/-- The JSON-RPC error envelope of the spec's §8 example. -/
def methodNotFoundBody : String :=
  renderJ (.obj [("jsonrpc", .str "2.0"), ("id", .num 1),
                 ("error", .obj [("code", .num (-32601)),
                                 ("message", .str "Method not found")])])

/-- C6 witness: the `-32601 Method not found` envelope, delivered both as a
plain JSON body and as an SSE-framed body. -/
theorem c6_protocolErrorSurfaced_witness :
    (MCPTime.sendRequest (NewMCPClient "u") (fun _ => ⟨200, methodNotFoundBody⟩)
        "tools/list" none).2 = .error (.mcpError (-32601) "Method not found") ∧
    (MCPTime.sendRequest (NewMCPClient "u")
        (fun _ => ⟨200, "event: message\ndata: " ++ methodNotFoundBody ++ "\n"⟩)
        "tools/list" none).2 = .error (.mcpError (-32601) "Method not found") :=
  ⟨c6_protocolErrorSurfaced (NewMCPClient "u") (fun _ => ⟨200, methodNotFoundBody⟩)
      "tools/list" none methodNotFoundBody
      ⟨"2.0", 1, none, some ⟨-32601, "Method not found", none⟩⟩
      ⟨-32601, "Method not found", none⟩ rfl rfl (Or.inl ⟨rfl, rfl⟩),
   c6_protocolErrorSurfaced (NewMCPClient "u")
      (fun _ => ⟨200, "event: message\ndata: " ++ methodNotFoundBody ++ "\n"⟩)
      "tools/list" none ("event: message\ndata: " ++ methodNotFoundBody ++ "\n")
      ⟨"2.0", 1, none, some ⟨-32601, "Method not found", none⟩⟩
      ⟨-32601, "Method not found", none⟩ rfl rfl
      (Or.inr ⟨rfl, by decide, rfl⟩)⟩

/-- A well-formed success envelope delivered with status 201 Created. -/
def c5Body : String :=
  renderJ (.obj [("jsonrpc", .str "2.0"), ("id", .num 1),
                 ("result", .obj [])])

/-- C5 counterexample: a 201 response — inside the 2xx range, with a
perfectly parseable success body — is rejected by `sendRequest` as a
transport-level error, because the code compares against `http.StatusOK`
(200) rather than the 2xx range. -/
theorem c5_status201Rejected_counterexample :
    (MCPTime.sendRequest (NewMCPClient "u") (fun _ => ⟨201, c5Body⟩)
        "tools/list" none).2 = .error (.httpError 201 c5Body) ∧
    200 ≤ 201 ∧ 201 < 300 ∧
    parseMCPResponse c5Body = some ⟨"2.0", 1, some (.obj []), none⟩ :=
  ⟨rfl, by decide, by decide, rfl⟩

/-- C5 as amended: `sendRequest` fails with the transport-level `httpError`
kind — carrying the status and body — exactly when the response status is
not 200; every 200 response is accepted at the transport level and its body
proceeds to parsing (the outcome is never `httpError`). -/
theorem c5_httpErrorIffNot200 (c : MCPClient) (t : Transport)
    (method : String) (params : Option JValue) :
    ((∃ s b, (MCPTime.sendRequest c t method params).2 = .error (.httpError s b))
      ↔ (t ⟨"2.0", c.requestID + 1, method, params⟩).status ≠ 200) ∧
    ((t ⟨"2.0", c.requestID + 1, method, params⟩).status ≠ 200 →
      (MCPTime.sendRequest c t method params).2 =
        .error (.httpError (t ⟨"2.0", c.requestID + 1, method, params⟩).status
          (t ⟨"2.0", c.requestID + 1, method, params⟩).body)) := by
  constructor
  · constructor
    · rintro ⟨s, b, h⟩ h200
      rw [MCPTime.sendRequest] at h
      simp only [h200] at h
      iterate 6 (all_goals try split at h)
      all_goals simp_all
    · intro h200
      exact ⟨(t ⟨"2.0", c.requestID + 1, method, params⟩).status,
             (t ⟨"2.0", c.requestID + 1, method, params⟩).body,
             by simp [MCPTime.sendRequest, h200]⟩
  · intro h200
    simp [MCPTime.sendRequest, h200]

/-- C5 witness: a 404 with body `nope` produces `httpError 404 "nope"`, and
a 200 with an empty body produces no `httpError`. -/
theorem c5_httpErrorIffNot200_witness :
    (MCPTime.sendRequest (NewMCPClient "u") (fun _ => ⟨404, "nope"⟩)
        "tools/list" none).2 = .error (.httpError 404 "nope") ∧
    ¬ (∃ s b, (MCPTime.sendRequest (NewMCPClient "u") (fun _ => ⟨200, ""⟩)
        "tools/list" none).2 = .error (.httpError s b)) :=
  ⟨(c5_httpErrorIffNot200 (NewMCPClient "u") (fun _ => ⟨404, "nope"⟩)
      "tools/list" none).2 (by decide),
   fun hex =>
     ((c5_httpErrorIffNot200 (NewMCPClient "u") (fun _ => ⟨200, ""⟩)
        "tools/list" none).1.mp hex) (by decide)⟩

/-- C7 counterexample: the body `event: message\ndata:\n` does contain a
line beginning with `data:`, and its trimmed remainder `""` does not parse
as an envelope — yet `sendRequest` returns success-with-null-result instead
of the parse failure the claim's reading implies: an empty trimmed remainder
is treated like a missing `data:` line, not parsed. -/
theorem c7_emptyDataLine_counterexample :
    (MCPTime.sendRequest (NewMCPClient "u") (fun _ => ⟨200, "event: message\ndata:\n"⟩)
        "tools/list" none).2 = .ok ⟨"2.0", 1, none, none⟩ ∧
    (goLines "event: message\ndata:\n").any
        (fun l => ("data:".data).isPrefixOf l) = true ∧
    extractSSEData "event: message\ndata:\n" = "" ∧
    parseMCPResponse "" = none :=
  ⟨rfl, by decide, rfl, rfl⟩

/-- `extractSSEData.go` returns the trimmed remainder (after the 5-character
marker) of the first line satisfying the `data:` prefix test, and `""` when
no line does. -/
theorem extractSSE_go_find (ls : List (List Char)) :
    (ls.find? (fun l => ("data:".data).isPrefixOf l) = none →
      extractSSEData.go ls = "") ∧
    (∀ l, ls.find? (fun l => ("data:".data).isPrefixOf l) = some l →
      extractSSEData.go ls = trimSpaceS (String.mk (l.drop 5))) := by
  induction ls with
  | nil => exact ⟨fun _ => rfl, fun l h => by simp at h⟩
  | cons hd tl ih =>
    cases hp : ("data:".data).isPrefixOf hd with
    | true =>
      refine ⟨fun h => ?_, fun l h => ?_⟩
      · rw [List.find?_cons_of_pos _ hp] at h
        exact Option.noConfusion h
      · rw [List.find?_cons_of_pos _ hp] at h
        cases h
        simp [extractSSEData.go, hp]
    | false =>
      refine ⟨fun h => ?_, fun l h => ?_⟩
      · rw [List.find?_cons_of_neg _ (by simp [hp])] at h
        simp only [extractSSEData.go, hp, Bool.false_eq_true, if_false]
        exact ih.1 h
      · rw [List.find?_cons_of_neg _ (by simp [hp])] at h
        simp only [extractSSEData.go, hp, Bool.false_eq_true, if_false]
        exact ih.2 l h

/-- C7 as amended: for a 200 body beginning with `event:`, `sendRequest`
scans the scanner's lines for the first one beginning with `data:` and trims
the remainder after the marker; when that trimmed remainder is non-empty it
is parsed as the response envelope, and when there is no `data:` line — or
its trimmed remainder is empty — the call succeeds with a null result. -/
theorem c7_sseHandling :
    (∀ body : String,
      ((goLines body).find? (fun l => ("data:".data).isPrefixOf l) = none →
        extractSSEData body = "") ∧
      (∀ l, (goLines body).find? (fun l => ("data:".data).isPrefixOf l) = some l →
        extractSSEData body = trimSpaceS (String.mk (l.drop 5)))) ∧
    (∀ (c : MCPClient) (t : Transport) (method : String) (params : Option JValue)
        (body : String) (r : MCPResponse),
      t ⟨"2.0", c.requestID + 1, method, params⟩ = ⟨200, body⟩ →
      hasPrefixS body "event:" = true →
      extractSSEData body ≠ "" →
      parseMCPResponse (extractSSEData body) = some r →
      r.error = none →
      (MCPTime.sendRequest c t method params).2 = .ok r) ∧
    (∀ (c : MCPClient) (t : Transport) (method : String) (params : Option JValue)
        (body : String),
      t ⟨"2.0", c.requestID + 1, method, params⟩ = ⟨200, body⟩ →
      hasPrefixS body "event:" = true →
      extractSSEData body = "" →
      (MCPTime.sendRequest c t method params).2 =
        .ok ⟨"2.0", c.requestID + 1, none, none⟩) := by
  refine ⟨fun body => extractSSE_go_find (goLines body), ?_, ?_⟩
  · intro c t method params body r ht hp hne hparse herr
    have hbody : body ≠ "" := by
      intro h
      rw [h] at hp
      exact Bool.noConfusion ((rfl : hasPrefixS "" "event:" = false) ▸ hp)
    simp [MCPTime.sendRequest, ht, hbody, hp, hne, hparse, herr]
  · intro c t method params body ht hp hd
    have hbody : body ≠ "" := by
      intro h
      rw [h] at hp
      exact Bool.noConfusion ((rfl : hasPrefixS "" "event:" = false) ▸ hp)
    simp [MCPTime.sendRequest, ht, hbody, hp, hd]

/-- The SSE body of the spec's §8 example. -/
def sseToolsBody : String :=
  "event: message\ndata: " ++
    renderJ (.obj [("jsonrpc", .str "2.0"), ("id", .num 1),
                   ("result", .obj [("tools", .arr [])])]) ++ "\n"

/-- C7 witness: the spec's SSE example parses to an envelope whose result is
`tools: []`, and an SSE body with no `data:` line yields a null result. -/
theorem c7_sseHandling_witness :
    (MCPTime.sendRequest (NewMCPClient "u") (fun _ => ⟨200, sseToolsBody⟩)
        "tools/list" none).2 =
      .ok ⟨"2.0", 1, some (.obj [("tools", .arr [])]), none⟩ ∧
    (MCPTime.sendRequest (NewMCPClient "u") (fun _ => ⟨200, "event: message\n\n"⟩)
        "tools/list" none).2 = .ok ⟨"2.0", 1, none, none⟩ :=
  ⟨c7_sseHandling.2.1 (NewMCPClient "u") (fun _ => ⟨200, sseToolsBody⟩)
      "tools/list" none sseToolsBody
      ⟨"2.0", 1, some (.obj [("tools", .arr [])]), none⟩
      rfl rfl (by decide) rfl rfl,
   c7_sseHandling.2.2 (NewMCPClient "u") (fun _ => ⟨200, "event: message\n\n"⟩)
      "tools/list" none "event: message\n\n" rfl rfl rfl⟩

/-- A transport that answers `tools/list` with an empty tool list and every
other request with a plain success envelope. -/
def c1Transport : Transport := fun req =>
  if req.method = "tools/list" then
    ⟨200, renderJ (.obj [("jsonrpc", .str "2.0"), ("id", .num 1),
                         ("result", .obj [("tools", .arr [])])])⟩
  else
    ⟨200, renderJ (.obj [("jsonrpc", .str "2.0"), ("id", .num 1),
                         ("result", .obj [])])⟩

/-- C1 counterexample: the client keeps no lifecycle state.  `ListTools`
and `CallTool` on a fresh, never-initialized client succeed outright (no
`InvalidState` rejection — there is no such error kind anywhere in the
client), and a second `Initialize` after a successful one also succeeds
instead of being rejected. -/
theorem c1_noInvalidState_counterexample :
    (MCPTime.ListTools (NewMCPClient "u") c1Transport).2 = .ok [] ∧
    (MCPTime.CallTool (NewMCPClient "u") c1Transport ⟨"time", []⟩).2 =
      .ok ⟨[], false⟩ ∧
    (MCPTime.Initialize (NewMCPClient "u") c1Transport).2 = .ok () ∧
    (MCPTime.Initialize (MCPTime.Initialize (NewMCPClient "u") c1Transport).1
        c1Transport).2 = .ok () :=
  ⟨rfl, rfl, rfl, rfl⟩

/-- C1 as amended: `MCPClient` records only a URL and a request counter, so
no operation is gated on initialization.  A `listTools` or `callTool` call
on a fresh client is sent to the server and succeeds whenever the reply
decodes, and a repeated `initialize` after a successful one re-runs the
handshake and succeeds whenever the transport accepts it. -/
theorem c1_noStateMachine :
    (∀ (u : String) (t : Transport) (body : String) (resp : MCPResponse)
        (fs : List (String × JValue)) (tv : JValue) (ts : List Tool),
      t ⟨"2.0", 1, "tools/list", none⟩ = ⟨200, body⟩ →
      hasPrefixS body "event:" = false →
      parseMCPResponse body = some resp →
      resp.error = none →
      resp.result = some (.obj fs) →
      lookupL fs "tools" = some tv →
      decodeToolList tv = some ts →
      (MCPTime.ListTools (NewMCPClient u) t).2 = .ok ts) ∧
    (∀ (u : String) (t : Transport) (tc : ToolCall) (body : String)
        (resp : MCPResponse) (tr : ToolResult),
      t ⟨"2.0", 1, "tools/call", some (.obj [("name", .str tc.name),
          ("arguments", .obj tc.arguments)])⟩ = ⟨200, body⟩ →
      hasPrefixS body "event:" = false →
      parseMCPResponse body = some resp →
      resp.error = none →
      decodeToolResult resp.result = some tr →
      (MCPTime.CallTool (NewMCPClient u) t tc).2 = .ok tr) ∧
    (∀ (c : MCPClient) (t1 t2 : Transport),
      (MCPTime.Initialize c t1).2 = .ok () →
      t2 ⟨"2.0", (MCPTime.Initialize c t1).1.requestID + 1, "initialize",
          some initializeParams⟩ = ⟨200, ""⟩ →
      (MCPTime.Initialize (MCPTime.Initialize c t1).1 t2).2 = .ok ()) := by
  refine ⟨?_, ?_, ?_⟩
  · intro u t body resp fs tv ts ht hp hparse herr hres hlook hdec
    have hbody : body ≠ "" := by
      intro h
      rw [h] at hparse
      exact Option.noConfusion ((rfl : parseMCPResponse "" = none) ▸ hparse)
    simp [MCPTime.ListTools, MCPTime.sendRequest, NewMCPClient, ht, hbody, hp,
      hparse, herr, hres, hlook, hdec]
  · intro u t tc body resp tr ht hp hparse herr hdec
    have hbody : body ≠ "" := by
      intro h
      rw [h] at hparse
      exact Option.noConfusion ((rfl : parseMCPResponse "" = none) ▸ hparse)
    simp [MCPTime.CallTool, MCPTime.sendRequest, NewMCPClient, ht, hbody, hp,
      hparse, herr, hdec]
  · intro c t1 t2 _h1 h2
    generalize (MCPTime.Initialize c t1).1 = c2 at h2 ⊢
    simp [MCPTime.Initialize, MCPTime.sendRequest, h2]

/-- A transport advertising one tool named `time` and answering `tools/call`
with one text content block. -/
def c1WitnessTransport : Transport := fun req =>
  if req.method = "tools/list" then
    ⟨200, renderJ (.obj [("jsonrpc", .str "2.0"), ("id", .num 1),
       ("result", .obj [("tools", .arr [.obj [("name", .str "time"),
         ("description", .str "current time"),
         ("inputSchema", .obj [])]])])])⟩
  else if req.method = "tools/call" then
    ⟨200, renderJ (.obj [("jsonrpc", .str "2.0"), ("id", .num 1),
       ("result", .obj [("content", .arr [.obj [("type", .str "text"),
         ("text", .str "12:00")]]), ("isError", .bool false)])])⟩
  else ⟨200, ""⟩

/-- C1 witness: a fresh client lists the `time` tool and calls it without
ever initializing, and initializes twice in a row. -/
theorem c1_noStateMachine_witness :
    (MCPTime.ListTools (NewMCPClient "w") c1WitnessTransport).2 =
      .ok [⟨"time", "current time", .obj []⟩] ∧
    (MCPTime.CallTool (NewMCPClient "w") c1WitnessTransport
        ⟨"time", [("format", .str "RFC3339")]⟩).2 =
      .ok ⟨[⟨"text", "12:00"⟩], false⟩ ∧
    (MCPTime.Initialize (MCPTime.Initialize (NewMCPClient "w") c1WitnessTransport).1
        c1WitnessTransport).2 = .ok () :=
  ⟨c1_noStateMachine.1 "w" c1WitnessTransport _ _ _ _ _ rfl rfl rfl rfl rfl rfl rfl,
   c1_noStateMachine.2.1 "w" c1WitnessTransport ⟨"time", [("format", .str "RFC3339")]⟩
     _ _ _ rfl rfl rfl rfl rfl,
   c1_noStateMachine.2.2 (NewMCPClient "w") c1WitnessTransport c1WitnessTransport
     rfl rfl⟩

/-- Two action groups advertising the same tool name `echo`: in group `G`
client 1 serves it (client 0 serves only `alpha`), and in group `H` client 2
serves it again. -/
def c3Setup : List (String × List (ClientId × List Tool)) :=
  [("G", [(0, [⟨"alpha", "", .null⟩]), (1, [⟨"echo", "", .null⟩])]),
   ("H", [(2, [⟨"echo", "", .null⟩])])]

/-- C3 counterexample: two clients (client 1 of group `G` and client 2 of
group `H`) advertise the same tool name `echo`.  The first matching tool in
registration order of groups, then of tools, is the one contributed by
client 1, yet `findMCPClientForTool` returns client 0 — the code returns
`actionGroup.MCPClients[0]` of the matching group — a client that serves
only `alpha`, not `echo`. -/
theorem c3_firstClientNotOwner_counterexample :
    findMCPClientForTool (agentOfSetup c3Setup) "echo" = some 0 ∧
    ownerOfFirstMatch c3Setup "echo" = some 1 ∧ (0 : ClientId) ≠ 1 :=
  ⟨rfl, rfl, by decide⟩

/-- The inner loop of `findMCPClientForTool` returns the group's first
client exactly when some tool in the list matches and the client list is
non-empty. -/
theorem findToolLoop_eq (toolName : String) (ts : List Tool) (cs : List ClientId) :
    findToolLoop toolName ts cs =
      if ts.any (fun tool => tool.name == toolName) && !cs.isEmpty
      then cs.head? else none := by
  induction ts with
  | nil => simp [findToolLoop]
  | cons tool ts ih =>
    by_cases htool : tool.name = toolName
    · cases cs with
      | nil => simp [findToolLoop, htool, ih]
      | cons c rest => simp [findToolLoop, htool]
    · simp [findToolLoop, htool, ih]

/-- C3 as amended: `findMCPClientForTool` returns the **first client**
(`MCPClients[0]`) of the first action group, in registration order, whose
tool list contains the name.  When every group has exactly one member client
this coincides with the owner of the first matching tool (registration order
of groups, then of tools); with several clients in one group the returned
client is that group's first client, which need not be the one that serves
the tool. -/
theorem c3_firstMatchResolution :
    (∀ (a : InlineAgent) (toolName : String),
      (∀ g ∈ a.actionGroups, g.mcpClients ≠ []) →
      findMCPClientForTool a toolName =
        (a.actionGroups.find?
          (fun g => g.tools.any (fun tool => tool.name == toolName))).bind
          (fun g => g.mcpClients.head?)) ∧
    (∀ (setup : List (String × List (ClientId × List Tool))) (toolName : String),
      (∀ g ∈ setup, ∃ m, g.2 = [m]) →
      findMCPClientForTool (agentOfSetup setup) toolName =
        ownerOfFirstMatch setup toolName) := by
  constructor
  · intro a toolName hcl
    have H : ∀ gs : List ActionGroup, (∀ g ∈ gs, g.mcpClients ≠ []) →
        findInGroups toolName gs =
          (gs.find?
            (fun g => g.tools.any (fun tool => tool.name == toolName))).bind
            (fun g => g.mcpClients.head?) := by
      intro gs
      induction gs with
      | nil => intro _; simp [findInGroups]
      | cons g rest ih =>
        intro hg
        have hne : g.mcpClients ≠ [] := hg g (List.mem_cons_self g rest)
        rw [findInGroups, findToolLoop_eq]
        cases hcs : g.mcpClients with
        | nil => exact absurd hcs hne
        | cons c cs =>
          cases hany : g.tools.any (fun tool => tool.name == toolName) with
          | true => simp [List.find?, hany, hcs]
          | false =>
            simp [List.find?, hany, hcs,
              ih (fun g2 hg2 => hg g2 (List.mem_cons_of_mem _ hg2))]
    exact H a.actionGroups hcl
  · intro setup toolName hsingle
    induction setup with
    | nil => rfl
    | cons g rest ih =>
      obtain ⟨⟨cid, ts⟩, hm⟩ := hsingle g (List.mem_cons_self g rest)
      have ihr := ih (fun g hg => hsingle g (List.mem_cons_of_mem _ hg))
      have hlhs : findMCPClientForTool (agentOfSetup (g :: rest)) toolName =
          match findToolLoop toolName ts [cid] with
          | some c => some c
          | none => findMCPClientForTool (agentOfSetup rest) toolName := by
        simp [findMCPClientForTool, agentOfSetup, findInGroups, buildActionGroup, hm]
      have hrhs : ownerOfFirstMatch (g :: rest) toolName =
          match (ts.map (fun t => (cid, t))).find? (fun p => p.2.name == toolName) with
          | some p => some p.1
          | none => ownerOfFirstMatch rest toolName := by
        simp only [ownerOfFirstMatch, List.flatMap_cons, List.find?_append, hm,
          List.flatMap_cons, List.flatMap_nil, List.append_nil]
        cases hfs : (ts.map (fun t => (cid, t))).find? (fun p => p.2.name == toolName) with
        | some p => simp [Option.or, hfs]
        | none => simp [Option.or, hfs, ownerOfFirstMatch]
      rw [hlhs, hrhs, findToolLoop_eq]
      rw [List.find?_map]
      cases hfind : ts.find? (fun t => t.name == toolName) with
      | some t0 =>
        have hany : ts.any (fun tool => tool.name == toolName) = true := by
          have hmem := List.mem_of_find?_eq_some hfind
          have hp := List.find?_some hfind
          simp only [List.any_eq_true]
          exact ⟨t0, hmem, by simpa using hp⟩
        have hcomp : ts.find? ((fun p : ClientId × Tool => p.2.name == toolName) ∘
            (fun t : Tool => (cid, t))) = some t0 := hfind
        simp [hany, hcomp]
      | none =>
        have hany : ts.any (fun tool => tool.name == toolName) = false := by
          simp only [List.any_eq_false]
          intro t ht
          simpa using List.find?_eq_none.mp hfind t ht
        have hcomp : ts.find? ((fun p : ClientId × Tool => p.2.name == toolName) ∘
            (fun t : Tool => (cid, t))) = none := hfind
        simp [hany, hcomp, ihr]

/-- Two single-client groups both advertising `echo`: resolution picks the
first-registered group's client. -/
def c3WitnessSetup : List (String × List (ClientId × List Tool)) :=
  [("G1", [(7, [⟨"echo", "", .null⟩])]),
   ("G2", [(9, [⟨"echo", "", .null⟩])])]

/-- C3 witness: the spec's tie-break example — two stub groups exposing
`echo`; resolution follows the first-match rule and returns the
first-registered owner, client 7. -/
theorem c3_firstMatchResolution_witness :
    findMCPClientForTool (agentOfSetup c3WitnessSetup) "echo" =
      (((agentOfSetup c3WitnessSetup).actionGroups.find?
        (fun g => g.tools.any (fun tool => tool.name == "echo"))).bind
        (fun g => g.mcpClients.head?)) ∧
    findMCPClientForTool (agentOfSetup c3WitnessSetup) "echo" =
      ownerOfFirstMatch c3WitnessSetup "echo" ∧
    findMCPClientForTool (agentOfSetup c3WitnessSetup) "echo" = some 7 :=
  ⟨c3_firstMatchResolution.1 (agentOfSetup c3WitnessSetup) "echo" (by decide),
   c3_firstMatchResolution.2 c3WitnessSetup "echo"
      (by intro g hg; fin_cases hg <;> exact ⟨_, rfl⟩),
   rfl⟩

/-- A transport whose notification response is a parseable JSON-RPC error
envelope (and whose `initialize` response is a plain success). -/
def c4MainTransport : Transport := fun req =>
  if req.method = "initialize" then
    ⟨200, renderJ (.obj [("jsonrpc", .str "2.0"), ("id", .num 1),
                         ("result", .obj [])])⟩
  else
    ⟨200, renderJ (.obj [("jsonrpc", .str "2.0"), ("id", .num 0),
      ("error", .obj [("code", .num (-32600)),
                      ("message", .str "Invalid Request")])])⟩

/-- C4 counterexample: the `src/mcp_time/main.go` client's `Initialize`
returns success even though the `notifications/initialized` transport
response carries a perfectly parseable JSON-RPC error object — that variant
reads and logs the notification body but never parses it. -/
theorem c4_mainIgnoresNotification_counterexample :
    (MCPTime.Initialize (NewMCPClient "u") c4MainTransport).2 = .ok () ∧
    parseMCPResponse (c4MainTransport initializedNotification).body =
      some ⟨"2.0", 0, none, some ⟨-32600, "Invalid Request", none⟩⟩ :=
  ⟨rfl, rfl⟩

/-- The error object embedded in a notification response body, if the body
(directly, or through its first SSE `data:` payload) parses to an envelope
whose `error` field is populated — the spec's "`ProtocolError` embedded in
that response, if parseable". -/
def notificationErrorOf (body : String) : Option MCPError :=
  if body ≠ "" then
    if hasPrefixS body "event:" then
      (let jsonData := extractSSEData body
       if jsonData ≠ "" then
         match parseMCPResponse jsonData with
         | some r => r.error
         | none => none
       else none)
    else
      match parseMCPResponse body with
      | some r => r.error
      | none => none
  else none

/-- C4 as amended: the claimed behaviour is that of the client in
`src/unnamed/part_001` — after the notification is sent, a parseable
JSON-RPC error object in its transport response fails the handshake with
the server's code and message, and otherwise (empty body, unparseable body,
no SSE data, or no error field) initialize succeeds.  The client in
`src/mcp_time/main.go` instead never parses the notification response:
whenever its `initialize` request succeeds, `Initialize` returns success
regardless of the notification response's content. -/
theorem c4_handshakeErrorSurfacing :
    (∀ (c : MCPClient) (t : Transport),
      (t ⟨"2.0", c.requestID + 1, "initialize", some initializeParams⟩).status = 200 →
      (((Part001.Initialize c t).2 = .ok ()) ↔
        notificationErrorOf (t initializedNotification).body = none) ∧
      (∀ e, notificationErrorOf (t initializedNotification).body = some e →
        (Part001.Initialize c t).2 = .error (.notificationError e.code e.message))) ∧
    (∀ (c : MCPClient) (t : Transport) (r : MCPResponse),
      (MCPTime.sendRequest c t "initialize" (some initializeParams)).2 = .ok r →
      (MCPTime.Initialize c t).2 = .ok ()) := by
  constructor
  · intro c t h200
    have hsend : Part001.sendRequest c t "initialize" (some initializeParams) =
        ({ c with requestID := c.requestID + 1 },
          .ok ⟨"2.0", c.requestID + 1, none, none⟩) := by
      simp [Part001.sendRequest, h200]
    have key : (Part001.Initialize c t).2 =
        (match notificationErrorOf (t initializedNotification).body with
         | some e => .error (.notificationError e.code e.message)
         | none => .ok ()) := by
      rw [Part001.Initialize, hsend]
      unfold notificationErrorOf
      by_cases hb : (t initializedNotification).body = ""
      · simp [hb]
      · by_cases hs : hasPrefixS (t initializedNotification).body "event:" = true
        · by_cases hd : extractSSEData (t initializedNotification).body = ""
          · simp [hb, hs, hd]
          · cases hp : parseMCPResponse (extractSSEData (t initializedNotification).body) with
            | none => simp [hb, hs, hd, hp]
            | some r =>
              cases herr : r.error with
              | none => simp [hb, hs, hd, hp, herr]
              | some e => simp [hb, hs, hd, hp, herr]
        · cases hp : parseMCPResponse (t initializedNotification).body with
          | none => simp [hb, hs, hp]
          | some r =>
            cases herr : r.error with
            | none => simp [hb, hs, hp, herr]
            | some e => simp [hb, hs, hp, herr]
    constructor
    · rw [key]
      cases hn : notificationErrorOf (t initializedNotification).body with
      | none => simp
      | some e => simp
    · intro e hn
      rw [key, hn]
  · intro c t r h
    rcases hsr : MCPTime.sendRequest c t "initialize" (some initializeParams)
      with ⟨c1, out⟩
    rw [hsr] at h
    simp only at h
    subst h
    simp [MCPTime.Initialize, hsr]

/-- A transport whose `initialize` response is empty and whose notification
response is the plain error envelope. -/
def c4P1Transport : Transport := fun req =>
  if req.method = "initialize" then ⟨200, ""⟩
  else
    ⟨200, renderJ (.obj [("jsonrpc", .str "2.0"), ("id", .num 0),
      ("error", .obj [("code", .num (-32600)),
                      ("message", .str "Invalid Request")])])⟩

/-- C4 witness: the part_001 client fails its handshake on a parseable error
in the notification response; the mcp_time client succeeds on the very same
kind of input. -/
theorem c4_handshakeErrorSurfacing_witness :
    (Part001.Initialize (NewMCPClient "w") c4P1Transport).2 =
      .error (.notificationError (-32600) "Invalid Request") ∧
    (MCPTime.Initialize (NewMCPClient "w") c4MainTransport).2 = .ok () :=
  ⟨(c4_handshakeErrorSurfacing.1 (NewMCPClient "w") c4P1Transport rfl).2
      ⟨-32600, "Invalid Request", none⟩ rfl,
   c4_handshakeErrorSurfacing.2 (NewMCPClient "w") c4MainTransport
      ⟨"2.0", 1, some (.obj []), none⟩ rfl⟩

/-- C9: when a tool-use executes successfully, the block that the loop
appends for it is a ToolResult block tagged with the originating tool-use
id whose content is exactly one text block holding the in-order
concatenation of the texts of the tool's result content — an expression in
which the result's `isError` flag does not occur — and the loop appends
these blocks verbatim as the next user message of the conversation. -/
theorem c9_toolResultConcatenation :
    (∀ (a : InlineAgent) (callTool : CallToolFn) (tus : List ToolUseMsg)
        (blocks : List ConvBlock) (i : Nat) (tu : ToolUseMsg) (n : String)
        (cid : ClientId) (tr : ToolResult),
      processToolUses a callTool tus = .ok blocks →
      tus.get? i = some tu →
      tu.name = some n →
      findMCPClientForTool a n = some cid →
      callTool cid ⟨n, tu.input.getD []⟩ = .ok tr →
      blocks.get? i = some (.toolResult (tu.toolUseId.getD "")
        [String.join (tr.content.map ContentBlock.text)])) ∧
    (∀ (a : InlineAgent) (callTool : CallToolFn) (converse : ConverseFn)
        (fuel : Nat) (msgs : List Message) (blocks : List ABlock)
        (toolResults : List ConvBlock),
      converse msgs = .ok blocks →
      (blocks.filterMap ABlock.toolUseOf).isEmpty = false →
      processToolUses a callTool (blocks.filterMap ABlock.toolUseOf) =
        .ok toolResults →
      invokeLoop a callTool converse (fuel + 1) msgs =
        invokeLoop a callTool converse fuel
          (msgs ++ [⟨.assistant, blocks.map ABlock.toConv⟩] ++
            [⟨.user, toolResults⟩])) := by
  constructor
  · intro a callTool tus
    induction tus with
    | nil =>
      intro blocks i tu n cid tr hproc hget hname hfind hcall
      simp at hget
    | cons hd tl ih =>
      intro blocks i tu n cid tr hproc hget hname hfind hcall
      rw [processToolUses] at hproc
      cases hhd : handleToolUse a callTool hd with
      | error e => rw [hhd] at hproc; simp at hproc
      | ok r =>
        rw [hhd] at hproc
        cases hrest : processToolUses a callTool tl with
        | error e => rw [hrest] at hproc; simp at hproc
        | ok bs =>
          rw [hrest] at hproc
          have hblocks : blocks =
              .toolResult r.toolUseId [String.join r.content] :: bs := by
            cases hproc
            rfl
          cases i with
          | zero =>
            have htu : hd = tu := by simpa using hget
            subst htu
            have hcomp : handleToolUse a callTool hd =
                .ok ⟨hd.toolUseId.getD "", tr.content.map ContentBlock.text,
                  if tr.isError then "error" else "success"⟩ := by
              simp [handleToolUse, hname, hfind, hcall]
            have hr : r = ⟨hd.toolUseId.getD "", tr.content.map ContentBlock.text,
                if tr.isError then "error" else "success"⟩ := by
              rw [hcomp] at hhd
              cases hhd
              rfl
            rw [hblocks, hr]
            rfl
          | succ j =>
            rw [hblocks]
            exact ih bs j tu n cid tr hrest (by simpa using hget) hname hfind hcall
  · intro a callTool converse fuel msgs blocks toolResults hconv hne hproc
    rw [invokeLoop, hconv]
    simp only [hne, Bool.false_eq_true, if_false, hproc, List.append_assoc]

/-- One registered group serving the `time` tool through client 0. -/
def c9Agent : InlineAgent := agentOfSetup [("G", [(0, [⟨"time", "", .null⟩])])]

/-- A tool call that answers with two text blocks. -/
def c9CallTool : CallToolFn :=
  fun _ _ => .ok ⟨[⟨"text", "It is "⟩, ⟨"text", "12:00"⟩], false⟩

def c9ToolUse : ToolUseMsg := ⟨some "tu-9", some "time", some []⟩

/-- A backend that requests the `time` tool on the first turn and answers
with final text once the tool result is in the conversation. -/
def c9Converse : ConverseFn := fun msgs =>
  if msgs.length = 1 then .ok [.toolUse c9ToolUse]
  else .ok [.text "It is now 12:00:00Z"]

/-- C9 witness: the two text blocks `It is ` and `12:00` are folded into the
single text `It is 12:00` of one ToolResult block, the loop appends that
block as the next user message, and the exchange ends with the backend's
final text. -/
theorem c9_toolResultConcatenation_witness :
    ([ConvBlock.toolResult "tu-9" ["It is 12:00"]].get? 0 =
      some (.toolResult "tu-9" [String.join (["It is ", "12:00"])])) ∧
    invokeLoop c9Agent c9CallTool c9Converse 2 [⟨.user, [.text "time?"]⟩] =
      invokeLoop c9Agent c9CallTool c9Converse 1
        ([⟨.user, [.text "time?"]⟩] ++ [⟨.assistant, [.toolUse c9ToolUse]⟩] ++
          [⟨.user, [.toolResult "tu-9" ["It is 12:00"]]⟩]) ∧
    Invoke c9Agent c9CallTool c9Converse 2 "time?" = .ok "It is now 12:00:00Z" :=
  ⟨c9_toolResultConcatenation.1 c9Agent c9CallTool [c9ToolUse]
      [.toolResult "tu-9" ["It is 12:00"]] 0 c9ToolUse "time" 0
      ⟨[⟨"text", "It is "⟩, ⟨"text", "12:00"⟩], false⟩ rfl rfl rfl rfl rfl,
   c9_toolResultConcatenation.2 c9Agent c9CallTool c9Converse 1
      [⟨.user, [.text "time?"]⟩] [.toolUse c9ToolUse]
      [.toolResult "tu-9" ["It is 12:00"]] rfl rfl rfl,
   rfl⟩

/-- C10: a tool-use whose structure lacks a string `name` is the one hard
failure of the handler — `missing tool name` — and it aborts the whole
`Invoke` call with a propagated error; every tool-use that does carry a
name produces a (possibly error-status) result without raising, whatever
the registry lookup and the tool call return. -/
theorem c10_missingToolNameHardError :
    (∀ (a : InlineAgent) (callTool : CallToolFn) (tu : ToolUseMsg),
      tu.name = none →
      handleToolUse a callTool tu = .error "missing tool name") ∧
    (∀ (a : InlineAgent) (callTool : CallToolFn) (tu : ToolUseMsg) (n : String),
      tu.name = some n →
      ∃ r, handleToolUse a callTool tu = .ok r) ∧
    (∀ (a : InlineAgent) (callTool : CallToolFn) (converse : ConverseFn)
        (fuel : Nat) (inputText : String) (blocks : List ABlock)
        (tu : ToolUseMsg) (rest : List ToolUseMsg),
      converse [⟨.user, [.text inputText]⟩] = .ok blocks →
      blocks.filterMap ABlock.toolUseOf = tu :: rest →
      tu.name = none →
      Invoke a callTool converse (fuel + 1) inputText =
        .error ("tool execution failed: missing tool name")) := by
  refine ⟨fun a callTool tu h => by simp [handleToolUse, h], ?_, ?_⟩
  · intro a callTool tu n hname
    simp only [handleToolUse, hname]
    split
    · exact ⟨_, rfl⟩
    · split
      · exact ⟨_, rfl⟩
      · exact ⟨_, rfl⟩
  · intro a callTool converse fuel inputText blocks tu rest hconv hfil hname
    have h1 : handleToolUse a callTool tu = .error "missing tool name" := by
      simp [handleToolUse, hname]
    unfold Invoke
    rw [invokeLoop, hconv]
    simp only [hfil, List.isEmpty_cons, Bool.false_eq_true, if_false,
      processToolUses, h1]
    rfl

/-- C10 witness: a tool-use block with no name aborts `Invoke`; the same
structure with a name yields a soft result. -/
theorem c10_missingToolNameHardError_witness :
    handleToolUse ⟨"", "", "", []⟩ (fun _ _ => .error (.formatError "y"))
        ⟨some "tu-x", none, none⟩ = .error "missing tool name" ∧
    Invoke ⟨"", "", "", []⟩ (fun _ _ => .error (.formatError "y"))
        (fun _ => .ok [.toolUse ⟨some "tu-x", none, none⟩]) 1 "hi" =
      .error "tool execution failed: missing tool name" ∧
    (∃ r, handleToolUse ⟨"", "", "", []⟩ (fun _ _ => .error (.formatError "y"))
        ⟨some "tu-x", some "nope", none⟩ = .ok r) :=
  ⟨c10_missingToolNameHardError.1 ⟨"", "", "", []⟩
      (fun _ _ => .error (.formatError "y")) ⟨some "tu-x", none, none⟩ rfl,
   c10_missingToolNameHardError.2.2 ⟨"", "", "", []⟩
      (fun _ _ => .error (.formatError "y"))
      (fun _ => .ok [.toolUse ⟨some "tu-x", none, none⟩]) 0 "hi"
      [.toolUse ⟨some "tu-x", none, none⟩] ⟨some "tu-x", none, none⟩ [] rfl rfl rfl,
   c10_missingToolNameHardError.2.1 ⟨"", "", "", []⟩
      (fun _ _ => .error (.formatError "y")) ⟨some "tu-x", some "nope", none⟩
      "nope" rfl⟩
